import Mathlib

/-!
Verification of the hoprnet core against its specification.

Part 1: the wide-block pseudo-random permutation (PRP), a shallow embedding of
`packages/core/crates/core-crypto/src/prp.rs`.  Byte buffers are modelled as
`List Nat` (each element one byte), byte XOR as `Nat.xor`.  The two external
cryptographic primitives (`calculate_mac` and `SimpleStreamCipher`, which live
outside this crate and are out of scope per the spec) are passed in as function
parameters:
  * `mac key msg` models `calculate_mac(key, msg)`;
  * `ks key nonce counter len` models the keystream bytes produced by
    `SimpleStreamCipher::new(key, nonce)` with `set_block_counter(counter)`
    when `apply` is run over a buffer of length `len`.

Part 2 (below): the peer network health manager, a shallow embedding of
`packages/core/crates/core-network/src/network.rs`.
-/

namespace Hopr

/-- `PRP_KEY_LENGTH` from `parameters.rs` (4 round keys of 32 bytes). -/
def PRP_KEY_LENGTH : Nat := 128

/-- `PRP_IV_LENGTH` from `parameters.rs` (4 round IVs of 16 bytes). -/
def PRP_IV_LENGTH : Nat := 64

/-- `PRP_MIN_LENGTH` from `parameters.rs`: minimum input size, 32 bytes. -/
def PRP_MIN_LENGTH : Nat := 32

/-- `PRP_INTERMEDIATE_KEY_LENGTH` from `parameters.rs`. -/
def PRP_INTERMEDIATE_KEY_LENGTH : Nat := 32

/-- `PRP_INTERMEDIATE_IV_LENGTH` from `parameters.rs`. -/
def PRP_INTERMEDIATE_IV_LENGTH : Nat := 16

/-- The `CryptoError` variants reachable from `prp.rs`. -/
inductive CryptoError where
  | InvalidParameterSize (nm : String) (expected : Nat)
  | InvalidInputValue
deriving DecidableEq, Repr

/-- The `PRP` struct: the four-element arrays `keys[0..4]` and `ivs[0..4]`
are modelled as four explicit fields each. -/
structure PRP where
  key0 : List Nat
  key1 : List Nat
  key2 : List Nat
  key3 : List Nat
  iv0 : List Nat
  iv1 : List Nat
  iv2 : List Nat
  iv3 : List Nat
deriving DecidableEq, Repr

/-- Rust slice `l[a..b]`. -/
def sliceL (l : List Nat) (a b : Nat) : List Nat :=
  (l.drop a).take (b - a)

/-- `PRP::new`: length checks, then positional partition of key and IV. -/
def PRP.new (key iv : List Nat) : Except CryptoError PRP :=
  if key.length ≠ PRP_KEY_LENGTH then
    Except.error (CryptoError.InvalidParameterSize "key" PRP_KEY_LENGTH)
  else if iv.length ≠ PRP_IV_LENGTH then
    Except.error (CryptoError.InvalidParameterSize "iv" PRP_IV_LENGTH)
  else
    Except.ok
      { key0 := sliceL key 0 32, key1 := sliceL key 32 64,
        key2 := sliceL key 64 96, key3 := sliceL key 96 128,
        iv0 := sliceL iv 0 16, iv1 := sliceL iv 16 32,
        iv2 := sliceL iv 32 48, iv3 := sliceL iv 48 64 }

/-- `PRP::xor_inplace(a, b)`: XOR `b` into `a` for `min |a| |b|` bytes, the
rest of `a` untouched. -/
def xor_inplace (a b : List Nat) : List Nat :=
  a.zipWith (fun x y => x ^^^ y) (b.take a.length) ++ a.drop b.length

/-- Little-endian u32 from the first four bytes, `u32::from_le_bytes(iv[0..4])`. -/
def leU32 (b : List Nat) : Nat :=
  b.getD 0 0 + 256 * b.getD 1 0 + 65536 * b.getD 2 0 + 16777216 * b.getD 3 0

/-- `PRP::xor_hash(data, key, iv)`: XOR into `data` (from offset 0) the MAC,
keyed by `key ++ iv`, of the tail `data[PRP_MIN_LENGTH..]`. -/
def xor_hash (mac : List Nat → List Nat → List Nat) (data key iv : List Nat) : List Nat :=
  xor_inplace data (mac (key ++ iv) (data.drop PRP_MIN_LENGTH))

/-- `PRP::xor_keystream(data, key, iv)`: the cipher key is `key` XORed with the
head `data[0..PRP_MIN_LENGTH]`; nonce is `iv[4..]`; the block counter is the
little-endian u32 in `iv[0..4]`; the keystream is XORed over the tail, the head
is untouched. -/
def xor_keystream (ks : List Nat → List Nat → Nat → Nat → List Nat)
    (data key iv : List Nat) : List Nat :=
  data.take PRP_MIN_LENGTH ++
    xor_inplace (data.drop PRP_MIN_LENGTH)
      (ks (xor_inplace key (data.take PRP_MIN_LENGTH)) (iv.drop 4) (leU32 (iv.take 4))
        (data.drop PRP_MIN_LENGTH).length)

/-- `PRP::forward`: reject short inputs, then keystream/hash/keystream/hash. -/
def PRP.forward (mac : List Nat → List Nat → List Nat)
    (ks : List Nat → List Nat → Nat → Nat → List Nat)
    (p : PRP) (plaintext : List Nat) : Except CryptoError (List Nat) :=
  if plaintext.length < PRP_MIN_LENGTH then
    Except.error CryptoError.InvalidInputValue
  else
    Except.ok
      (xor_hash mac
        (xor_keystream ks
          (xor_hash mac
            (xor_keystream ks plaintext p.key0 p.iv0)
            p.key1 p.iv1)
          p.key2 p.iv2)
        p.key3 p.iv3)

/-- `PRP::inverse`: reject short inputs, then the rounds in reverse order. -/
def PRP.inverse (mac : List Nat → List Nat → List Nat)
    (ks : List Nat → List Nat → Nat → Nat → List Nat)
    (p : PRP) (ciphertext : List Nat) : Except CryptoError (List Nat) :=
  if ciphertext.length < PRP_MIN_LENGTH then
    Except.error CryptoError.InvalidInputValue
  else
    Except.ok
      (xor_keystream ks
        (xor_hash mac
          (xor_keystream ks
            (xor_hash mac ciphertext p.key3 p.iv3)
            p.key2 p.iv2)
          p.key1 p.iv1)
        p.key0 p.iv0)

/-!
Part 2: the peer network health manager
(`packages/core/crates/core-network/src/network.rs`).

Modelling conventions:
  * `PeerId` values are opaque and compared by equality; they are modelled as
    `Nat`.  `peer.to_string()` is injective, so the string-keyed maps are
    keyed by the peer id directly.
  * `HashMap`/`HashSet` are modelled as association lists / lists without
    duplicates (`lookupA`, `insertA`, `removeA`, `insertS`, `removeS`).
  * `f64` quality and backoff values are modelled as exact rationals.  All
    quality arithmetic used by the claims (`+ 0.1`, `- 0.1`, `min`, `max`,
    comparisons against 0.05 / 0.2 / the threshold) is branch-equivalent to
    the `f64` computation on every concrete trace appearing below.
    `f64::powf(x, 1.5)` = `x * sqrt x` is modelled by `powf15`, the square
    root computed exactly and truncated to 6 decimal digits.  On the
    reachable backoff values every derived quantity agrees exactly with the
    `f64` computation: at `backoff = MIN_BACKOFF = 2` the ping delay is
    `⌊1000 * 2^1.5⌋ = 2828` ms, the value asserted by the source's own
    `test_entry_should_advance_time_on_ping`; at `backoff ≥ MAX_BACKOFF`
    the delay is capped at `MAX_DELAY`; and the comparisons the other
    claims use (`2^1.5 ≤ 300 < 300^1.5`) agree as well.
  * `current_timestamp()` is an injected clock: mutating operations take the
    current time `now` as an extra argument.
  * Of the `NetworkExternalActions` callbacks, `is_public` feeds a value back
    into the manager and is modelled as the function field `is_public_api`;
    the fire-and-forget callbacks (`close_connection`, `on_peer_offline`,
    `on_network_health_change`) are recorded in the `events` trace field.
  * The optional metric gauges perform no state change and are omitted.
  * `Network::new` panics when the threshold is below `BAD_QUALITY`; the
    panic is modelled as `none`.
-/

/-- `MIN_DELAY` in milliseconds (`Duration::from_secs(1)`). -/
def MIN_DELAY : Nat := 1000

/-- `MAX_DELAY` in milliseconds (`Duration::from_secs(300)`). -/
def MAX_DELAY : Nat := 300000

/-- `MIN_BACKOFF`. -/
def MIN_BACKOFF : ℚ := 2

/-- `MAX_BACKOFF` = `MAX_DELAY.as_millis() / MIN_DELAY.as_millis()` = 300. -/
def MAX_BACKOFF : ℚ := 300

/-- `BAD_QUALITY`. -/
def BAD_QUALITY : ℚ := 1/5

/-- `IGNORE_TIMEFRAME` in milliseconds (`Duration::from_secs(600)`). -/
def IGNORE_TIMEFRAME : Nat := 600000

/-- `QUALITY_STEP`. -/
def QUALITY_STEP : ℚ := 1/10

/-- Integer square root by bisection with explicit fuel (64 halvings cover
every argument produced below). -/
def isqrtGo (n : Nat) : Nat → Nat → Nat → Nat
  | 0, lo, _ => lo
  | fuel+1, lo, hi =>
    if hi ≤ lo + 1 then lo
    else
      let mid := (lo + hi) / 2
      if mid * mid ≤ n then isqrtGo n fuel mid hi else isqrtGo n fuel lo mid

/-- Integer square root (rounded down). -/
def isqrt (n : Nat) : Nat :=
  if n ≤ 1 then n else isqrtGo n 64 1 n

/-- Square root of a rational, truncated to 6 decimal digits: for `x ≥ 0`
the argument of `isqrt` is exactly `⌊x * 10^12⌋` (computed as
`num * 10^12 / den` to stay in `Nat`); negatives give 0. -/
def ratSqrt (x : ℚ) : ℚ :=
  (isqrt (x.num.toNat * 1000000000000 / x.den) : ℚ) / 1000000

/-- Model of `f64::powf(x, BACKOFF_EXPONENT)` with `BACKOFF_EXPONENT = 1.5`,
i.e. `x^1.5 = x * sqrt x`, the square root truncated to 6 decimal digits
(see the module comment: on all reachable backoff values, the derived delays
and comparisons agree exactly with `f64::powf`). -/
def powf15 (x : ℚ) : ℚ := x * ratSqrt x

/-- `PeerOrigin` with its nine variants in declaration order. -/
inductive PeerOrigin where
  | Initialization
  | NetworkRegistry
  | IncomingConnection
  | OutgoingConnection
  | StrategyExistingChannel
  | StrategyConsideringChannel
  | StrategyNewChannel
  | ManualPing
  | Testing
deriving DecidableEq, Repr

/-- `Health` with its five variants in declaration order. -/
inductive Health where
  | UNKNOWN
  | RED
  | ORANGE
  | YELLOW
  | GREEN
deriving DecidableEq, Repr

/-- One invocation of a fire-and-forget `NetworkExternalActions` callback. -/
inductive NetEvent where
  | closeConnection (peer : Nat)
  | onPeerOffline (peer : Nat)
  | onNetworkHealthChange (old : Health) (next : Health)
deriving DecidableEq, Repr

/-- The `PeerStatus` record. -/
structure PeerStatus where
  id : Nat
  origin : PeerOrigin
  is_public : Bool
  last_seen : Nat
  quality : ℚ
  heartbeats_sent : Nat
  heartbeats_succeeded : Nat
  backoff : ℚ
  ignored_at : Option Nat
deriving DecidableEq, Repr

/-- `PeerStatus::new`. -/
def PeerStatus.new (id : Nat) (origin : PeerOrigin) : PeerStatus :=
  { id := id, origin := origin, is_public := false, heartbeats_sent := 0,
    heartbeats_succeeded := 0, last_seen := 0, backoff := MIN_BACKOFF,
    quality := 0, ignored_at := none }

/-- `PeerStatus::next_ping`:
`last_seen + min(MAX_DELAY, (MIN_DELAY.as_millis() as f64 * backoff^1.5) as u64)`
(the `as u64` cast truncates; it saturates to 0 on negatives). -/
def PeerStatus.next_ping (s : PeerStatus) : Nat :=
  s.last_seen + min MAX_DELAY (Rat.floor ((MIN_DELAY : ℚ) * powf15 s.backoff)).toNat

/-- Association-list map lookup (`HashMap::get`). -/
def lookupA {α : Type} (m : List (Nat × α)) (k : Nat) : Option α :=
  match m.find? (fun kv => kv.1 == k) with
  | some kv => some kv.2
  | none => none

/-- Association-list map removal (`HashMap::remove`). -/
def removeA {α : Type} (m : List (Nat × α)) (k : Nat) : List (Nat × α) :=
  m.filter (fun kv => kv.1 != k)

/-- Association-list map insertion/replacement (`HashMap::insert`). -/
def insertA {α : Type} (m : List (Nat × α)) (k : Nat) (v : α) : List (Nat × α) :=
  removeA m k ++ [(k, v)]

/-- Set removal (`HashSet::remove`). -/
def removeS (s : List Nat) (x : Nat) : List Nat :=
  s.filter (fun y => y != x)

/-- Set insertion (`HashSet::insert`). -/
def insertS (s : List Nat) (x : Nat) : List Nat :=
  if x ∈ s then s else s ++ [x]

/-- The `Network` struct (metric gauge handles omitted, `events` added as the
trace of fire-and-forget callback invocations). -/
structure Network where
  me : Nat
  entries : List (Nat × PeerStatus)
  ignored : List (Nat × Nat)
  excluded : List Nat
  network_quality_threshold : ℚ
  good_quality_public : List Nat
  bad_quality_public : List Nat
  good_quality_non_public : List Nat
  bad_quality_non_public : List Nat
  last_health : Health
  is_public_api : Nat → Bool
  events : List NetEvent

/-- `Network::new`.  The source panics when
`network_quality_threshold < BAD_QUALITY`; the panic is modelled as `none`. -/
def Network.new (my_peer_id : Nat) (network_quality_threshold : ℚ)
    (is_public_api : Nat → Bool) : Option Network :=
  if network_quality_threshold < BAD_QUALITY then none
  else
    some
      { me := my_peer_id, entries := [], ignored := [],
        excluded := [my_peer_id],
        network_quality_threshold := network_quality_threshold,
        good_quality_public := [], bad_quality_public := [],
        good_quality_non_public := [], bad_quality_non_public := [],
        last_health := Health.UNKNOWN, is_public_api := is_public_api,
        events := [] }

/-- `Network::has`. -/
def Network.has (n : Network) (peer : Nat) : Bool :=
  (lookupA n.entries peer).isSome

/-- `Network::prune_from_network_status`.  Faithful to the source, which
removes the peer from `good_quality_public` TWICE and never from
`bad_quality_public` (lines 347-350 of `network.rs`). -/
def Network.prune_from_network_status (n : Network) (peer : Nat) : Network :=
  let n1 := { n with good_quality_public := removeS n.good_quality_public peer }
  let n2 := { n1 with good_quality_non_public := removeS n1.good_quality_non_public peer }
  let n3 := { n2 with good_quality_public := removeS n2.good_quality_public peer }
  { n3 with bad_quality_non_public := removeS n3.bad_quality_non_public peer }

/-- `Network::refresh_network_status`: prune, re-insert into exactly one
bucket, recompute health (RED, then ORANGE if any bad public, then
GREEN/YELLOW if any good public), emit `on_network_health_change` and store
the health when it changed. -/
def Network.refresh_network_status (n : Network) (entry : PeerStatus) : Network :=
  let n1 := n.prune_from_network_status entry.id
  let n2 :=
    if entry.quality < n1.network_quality_threshold then
      if entry.is_public then
        { n1 with bad_quality_public := insertS n1.bad_quality_public entry.id }
      else
        { n1 with bad_quality_non_public := insertS n1.bad_quality_non_public entry.id }
    else
      if entry.is_public then
        { n1 with good_quality_public := insertS n1.good_quality_public entry.id }
      else
        { n1 with good_quality_non_public := insertS n1.good_quality_non_public entry.id }
  let h0 := Health.RED
  let h1 := if 0 < n2.bad_quality_public.length then Health.ORANGE else h0
  let h2 :=
    if 0 < n2.good_quality_public.length then
      if 0 < n2.good_quality_non_public.length || n2.is_public_api n2.me then
        Health.GREEN
      else
        Health.YELLOW
    else h1
  if h2 ≠ n2.last_health then
    { n2 with last_health := h2,
              events := n2.events ++ [NetEvent.onNetworkHealthChange n2.last_health h2] }
  else n2

/-- `Network::add`. -/
def Network.add (n : Network) (now : Nat) (peer : Nat) (origin : PeerOrigin) : Network :=
  let has_entry := (lookupA n.entries peer).isSome
  let is_excluded := !has_entry && n.excluded.contains peer
  if is_excluded then n
  else
    let step :=
      match (if !has_entry then lookupA n.ignored peer else none) with
      | some timestamp =>
        if timestamp + IGNORE_TIMEFRAME < now then
          (false, { n with ignored := removeA n.ignored peer })
        else
          (true, n)
      | none => (false, n)
    let is_ignored := step.1
    let n1 := step.2
    if !has_entry && !is_ignored then
      let entry := { PeerStatus.new peer origin with is_public := n1.is_public_api peer }
      let n2 := n1.refresh_network_status entry
      { n2 with entries := insertA n2.entries peer entry }
    else n1

/-- `Network::remove`.  `ignored` and `excluded` are intentionally untouched. -/
def Network.remove (n : Network) (peer : Nat) : Network :=
  let n1 := n.prune_from_network_status peer
  { n1 with entries := removeA n1.entries peer }

/-- `Network::update`.  `ping_result` is `some timestamp` for `Ok` and `none`
for `Err`. -/
def Network.update (n : Network) (now : Nat) (peer : Nat) (ping_result : Option Nat) :
    Network :=
  match lookupA n.entries peer with
  | none => n
  | some existing =>
    let entry0 :=
      { existing with
        last_seen := match ping_result with | none => now | some ts => ts,
        heartbeats_sent := existing.heartbeats_sent + 1 }
    match ping_result with
    | none =>
      let entry :=
        { entry0 with
          backoff := max MAX_BACKOFF (powf15 entry0.backoff),
          quality := max 0 (entry0.quality - QUALITY_STEP) }
      if entry.quality < QUALITY_STEP / 2 then
        let na := { n with events := n.events ++ [NetEvent.closeConnection entry.id] }
        let nb := na.prune_from_network_status entry.id
        { nb with entries := removeA nb.entries entry.id }
      else if entry.quality < BAD_QUALITY then
        { n with ignored := insertA n.ignored entry.id now }
      else
        let na :=
          if entry.quality < n.network_quality_threshold then
            { n with events := n.events ++ [NetEvent.onPeerOffline entry.id] }
          else n
        let nb := na.refresh_network_status entry
        { nb with entries := insertA nb.entries entry.id entry }
    | some _ =>
      let entry :=
        { entry0 with
          heartbeats_succeeded := entry0.heartbeats_succeeded + 1,
          backoff := MIN_BACKOFF,
          quality := min 1 (entry0.quality + 1/10) }
      let na := n.refresh_network_status entry
      { na with entries := insertA na.entries entry.id entry }

/-- `Network::get_peer_status`. -/
def Network.get_peer_status (n : Network) (peer : Nat) : Option PeerStatus :=
  lookupA n.entries peer

/-- `Network::filter` (predicate filtering over entry values, returning ids). -/
def Network.filter (n : Network) (f : PeerStatus → Bool) : List Nat :=
  ((n.entries.map Prod.snd).filter f).map PeerStatus.id

/-- The sort key used by `Network::find_peers_to_ping` (`last_seen` of the
entry; the source `unwrap`s the lookup, which always succeeds there). -/
def lastSeenOf (n : Network) (peer : Nat) : Nat :=
  match lookupA n.entries peer with
  | some e => e.last_seen
  | none => 0

/-- `Network::find_peers_to_ping`: filter by `next_ping < threshold`, then
sort ascending by `last_seen` (the source comparator never reports equality,
so the order of ties is unspecified; a stable insertion sort realises one
such order). -/
def Network.find_peers_to_ping (n : Network) (threshold : Nat) : List Nat :=
  List.insertionSort (fun a b => lastSeenOf n a ≤ lastSeenOf n b)
    (n.filter (fun v => decide (v.next_ping < threshold)))

/-- `Network::length`. -/
def Network.length (n : Network) : Nat :=
  n.entries.length

/-- `Network::health`. -/
def Network.health (n : Network) : Health :=
  n.last_health

/-- The reachable manager states: everything obtainable from `Network::new`
by `add` / `remove` / `update` with arbitrary peers, clocks and results. -/
inductive Reachable : Network → Prop where
  | new (me : Nat) (thr : ℚ) (api : Nat → Bool) (n : Network) :
      Network.new me thr api = some n → Reachable n
  | add (n : Network) (now peer : Nat) (origin : PeerOrigin) :
      Reachable n → Reachable (n.add now peer origin)
  | remove (n : Network) (peer : Nat) :
      Reachable n → Reachable (n.remove peer)
  | update (n : Network) (now peer : Nat) (r : Option Nat) :
      Reachable n → Reachable (n.update now peer r)

/-- The structural invariant behind C8: the local peer is excluded, entry keys
agree with the stored `PeerStatus.id`, and the local peer has no entry. -/
def InvM (n : Network) : Prop :=
  n.me ∈ n.excluded ∧ (∀ kv ∈ n.entries, kv.1 = kv.2.id) ∧
    lookupA n.entries n.me = none

/-- A fresh manager with threshold 0.6 whose `is_public` callback always
answers `false`; this is `Network::new 0 0.6 _`. -/
def netA : Network :=
  { me := 0, entries := [], ignored := [], excluded := [0],
    network_quality_threshold := 3/5,
    good_quality_public := [], bad_quality_public := [],
    good_quality_non_public := [], bad_quality_non_public := [],
    last_health := Health.UNKNOWN, is_public_api := fun _ => false,
    events := [] }

/-- A fresh manager with threshold 0.2 whose `is_public` callback answers
`true` exactly for peer 1; this is `Network::new 0 0.2 _`. -/
def netB : Network :=
  { me := 0, entries := [], ignored := [], excluded := [0],
    network_quality_threshold := 1/5,
    good_quality_public := [], bad_quality_public := [],
    good_quality_non_public := [], bad_quality_non_public := [],
    last_health := Health.UNKNOWN, is_public_api := fun p => p == 1,
    events := [] }

/-- A peer status at quality exactly `BAD_QUALITY` (0.2): one failed heartbeat
away from the ignore band. -/
def statusC : PeerStatus :=
  { id := 1, origin := PeerOrigin.Testing, is_public := true, last_seen := 5,
    quality := 1/5, heartbeats_sent := 3, heartbeats_succeeded := 1,
    backoff := 300, ignored_at := none }

/-- A peer status at quality 0.1: one failed heartbeat away from eviction. -/
def statusD : PeerStatus :=
  { id := 1, origin := PeerOrigin.Testing, is_public := true, last_seen := 5,
    quality := 1/10, heartbeats_sent := 4, heartbeats_succeeded := 1,
    backoff := 300, ignored_at := none }

/-- A manager state tracking peer 1 at status `statusC`. -/
def netC : Network :=
  { me := 0, entries := [(1, statusC)], ignored := [], excluded := [0],
    network_quality_threshold := 3/5,
    good_quality_public := [], bad_quality_public := [1],
    good_quality_non_public := [], bad_quality_non_public := [],
    last_health := Health.ORANGE, is_public_api := fun p => p == 1,
    events := [] }

/-- A manager state tracking peer 1 at status `statusD`. -/
def netD : Network :=
  { me := 0, entries := [(1, statusD)], ignored := [], excluded := [0],
    network_quality_threshold := 3/5,
    good_quality_public := [], bad_quality_public := [1],
    good_quality_non_public := [], bad_quality_non_public := [],
    last_health := Health.ORANGE, is_public_api := fun p => p == 1,
    events := [] }

/-! Helper lemmas about `xor_inplace`. -/

theorem xor_inplace_nil_right (a : List Nat) : xor_inplace a [] = a := by
  simp [xor_inplace]

theorem xor_inplace_nil_left (b : List Nat) : xor_inplace [] b = [] := by
  simp [xor_inplace]

theorem xor_inplace_cons (x y : Nat) (xs ys : List Nat) :
    xor_inplace (x :: xs) (y :: ys) = (x ^^^ y) :: xor_inplace xs ys := by
  simp [xor_inplace]

theorem length_xor_inplace (a b : List Nat) :
    (xor_inplace a b).length = a.length := by
  induction a generalizing b with
  | nil => simp [xor_inplace_nil_left]
  | cons x xs ih =>
    cases b with
    | nil => simp [xor_inplace_nil_right]
    | cons y ys => simp [xor_inplace_cons, ih]

theorem xor_inplace_cancel (a b : List Nat) :
    xor_inplace (xor_inplace a b) b = a := by
  induction a generalizing b with
  | nil => simp [xor_inplace_nil_left]
  | cons x xs ih =>
    cases b with
    | nil => simp [xor_inplace_nil_right]
    | cons y ys =>
      simp [xor_inplace_cons, ih, Nat.xor_assoc, Nat.xor_self, Nat.xor_zero]

theorem drop_xor_inplace_of_le (b a : List Nat) (n : Nat) (h : b.length ≤ n) :
    (xor_inplace a b).drop n = a.drop n := by
  induction b generalizing a n with
  | nil => simp [xor_inplace_nil_right]
  | cons y ys ih =>
    cases a with
    | nil => simp [xor_inplace_nil_left]
    | cons x xs =>
      cases n with
      | zero => simp at h
      | succ m =>
        simp only [xor_inplace_cons, List.drop_succ_cons]
        exact ih xs m (by simpa using h)

/-! Round-level lemmas. -/

theorem length_xor_hash (mac : List Nat → List Nat → List Nat) (data key iv : List Nat) :
    (xor_hash mac data key iv).length = data.length :=
  length_xor_inplace _ _

theorem xor_hash_invol (mac : List Nat → List Nat → List Nat) (data key iv : List Nat)
    (hm : ∀ m, (mac (key ++ iv) m).length = PRP_MIN_LENGTH) :
    xor_hash mac (xor_hash mac data key iv) key iv = data := by
  unfold xor_hash
  rw [drop_xor_inplace_of_le _ _ _ (le_of_eq (hm _))]
  exact xor_inplace_cancel _ _

theorem length_xor_keystream (ks : List Nat → List Nat → Nat → Nat → List Nat)
    (data key iv : List Nat) (h : PRP_MIN_LENGTH ≤ data.length) :
    (xor_keystream ks data key iv).length = data.length := by
  simp only [xor_keystream, List.length_append, List.length_take, List.length_drop,
    length_xor_inplace]
  omega

theorem xor_keystream_invol (ks : List Nat → List Nat → Nat → Nat → List Nat)
    (data key iv : List Nat) (h : PRP_MIN_LENGTH ≤ data.length) :
    xor_keystream ks (xor_keystream ks data key iv) key iv = data := by
  unfold xor_keystream
  have hlen : (data.take PRP_MIN_LENGTH).length = PRP_MIN_LENGTH := by
    simp
    omega
  rw [List.take_left' hlen, List.drop_left' hlen, length_xor_inplace, xor_inplace_cancel]
  exact List.take_append_drop _ _

theorem forward_then_inverse (mac : List Nat → List Nat → List Nat)
    (ks : List Nat → List Nat → Nat → Nat → List Nat)
    (hm : ∀ k m, (mac k m).length = PRP_MIN_LENGTH)
    (p : PRP) (pt : List Nat) (hpt : PRP_MIN_LENGTH ≤ pt.length) :
    ∃ ct, PRP.forward mac ks p pt = Except.ok ct ∧
      PRP.inverse mac ks p ct = Except.ok pt := by
  have hnot : ¬ pt.length < PRP_MIN_LENGTH := not_lt.mpr hpt
  refine ⟨xor_hash mac
      (xor_keystream ks
        (xor_hash mac (xor_keystream ks pt p.key0 p.iv0) p.key1 p.iv1)
        p.key2 p.iv2)
      p.key3 p.iv3, by simp [PRP.forward, hnot], ?_⟩
  have l0 : (xor_keystream ks pt p.key0 p.iv0).length = pt.length :=
    length_xor_keystream _ _ _ _ hpt
  have l1 : (xor_hash mac (xor_keystream ks pt p.key0 p.iv0) p.key1 p.iv1).length =
      pt.length := by
    rw [length_xor_hash]
    exact l0
  have l2 : (xor_keystream ks
      (xor_hash mac (xor_keystream ks pt p.key0 p.iv0) p.key1 p.iv1)
      p.key2 p.iv2).length = pt.length := by
    rw [length_xor_keystream _ _ _ _ (by rw [l1]; exact hpt)]
    exact l1
  have l3 : (xor_hash mac
      (xor_keystream ks
        (xor_hash mac (xor_keystream ks pt p.key0 p.iv0) p.key1 p.iv1)
        p.key2 p.iv2)
      p.key3 p.iv3).length = pt.length := by
    rw [length_xor_hash]
    exact l2
  simp only [PRP.inverse]
  rw [xor_hash_invol mac _ _ _ (fun m => hm _ m)]
  rw [xor_keystream_invol ks _ _ _ (by rw [l1]; exact hpt)]
  rw [xor_hash_invol mac _ _ _ (fun m => hm _ m)]
  rw [xor_keystream_invol ks pt _ _ hpt]
  rw [if_neg (by rw [l3]; exact hnot)]

/-- **C1.** For every key of length 128, IV of length 64 and plaintext of
length ≥ 32, `PRP::new` succeeds and `inverse(forward(plaintext)) = plaintext`.
The hypothesis `hm` records the spec's assumption on the external MAC primitive
(its output covers exactly the 32-byte head); the keystream primitive `ks`
is arbitrary. -/
theorem prp_forward_inverse_identity (mac : List Nat → List Nat → List Nat)
    (ks : List Nat → List Nat → Nat → Nat → List Nat)
    (hm : ∀ k m, (mac k m).length = PRP_MIN_LENGTH)
    (key iv : List Nat) (hkey : key.length = PRP_KEY_LENGTH) (hiv : iv.length = PRP_IV_LENGTH)
    (pt : List Nat) (hpt : PRP_MIN_LENGTH ≤ pt.length) :
    ∃ prp ct, PRP.new key iv = Except.ok prp ∧
      PRP.forward mac ks prp pt = Except.ok ct ∧
      PRP.inverse mac ks prp ct = Except.ok pt := by
  obtain ⟨ct, h1, h2⟩ := forward_then_inverse mac ks hm
    ⟨sliceL key 0 32, sliceL key 32 64, sliceL key 64 96, sliceL key 96 128,
     sliceL iv 0 16, sliceL iv 16 32, sliceL iv 32 48, sliceL iv 48 64⟩ pt hpt
  exact ⟨_, ct, by simp [PRP.new, hkey, hiv], h1, h2⟩

/-- Witness for C1: the theorem applied to the all-zero key and IV, a constant
MAC and a constant keystream, and a 32-byte plaintext of ones. -/
theorem prp_forward_inverse_identity_app :
    ∃ prp ct,
      PRP.new (List.replicate 128 0) (List.replicate 64 0) = Except.ok prp ∧
      PRP.forward (fun _ _ => List.replicate 32 7) (fun _ _ _ n => List.replicate n 3) prp
        (List.replicate 32 1) = Except.ok ct ∧
      PRP.inverse (fun _ _ => List.replicate 32 7) (fun _ _ _ n => List.replicate n 3) prp ct =
        Except.ok (List.replicate 32 1) :=
  prp_forward_inverse_identity _ _
    (fun k m => by simp [PRP_MIN_LENGTH]) _ _
    (by simp [PRP_KEY_LENGTH]) (by simp [PRP_IV_LENGTH]) _
    (by simp [PRP_MIN_LENGTH])

/-- **C9.** `PRP::forward` and `PRP::inverse` return `InvalidInputValue` exactly
on inputs shorter than `PRP_MIN_LENGTH` = 32 bytes; on such inputs nothing else
is returned. -/
theorem prp_reject_short_iff (mac : List Nat → List Nat → List Nat)
    (ks : List Nat → List Nat → Nat → Nat → List Nat) (p : PRP) (input : List Nat) :
    (PRP.forward mac ks p input = Except.error CryptoError.InvalidInputValue ↔
      input.length < PRP_MIN_LENGTH) ∧
    (PRP.inverse mac ks p input = Except.error CryptoError.InvalidInputValue ↔
      input.length < PRP_MIN_LENGTH) := by
  by_cases h : input.length < PRP_MIN_LENGTH <;>
    simp [PRP.forward, PRP.inverse, h]

/-! Association-list lemmas. -/

theorem find_filter_self {α : Type} (k : Nat) :
    ∀ m : List (Nat × α),
      (m.filter (fun kv => kv.1 != k)).find? (fun kv => kv.1 == k) = none
  | [] => rfl
  | kv :: m => by
    rcases eq_or_ne kv.1 k with hk | hk
    · rw [List.filter_cons, if_neg (by simp [hk])]
      exact find_filter_self k m
    · rw [List.filter_cons, if_pos (by simp [hk]), List.find?_cons,
        show (kv.1 == k) = false by simp [hk]]
      exact find_filter_self k m

theorem find_filter_ne {α : Type} (k j : Nat) (h : j ≠ k) :
    ∀ m : List (Nat × α),
      (m.filter (fun kv => kv.1 != k)).find? (fun kv => kv.1 == j) =
        m.find? (fun kv => kv.1 == j)
  | [] => rfl
  | kv :: m => by
    rcases eq_or_ne kv.1 k with hk | hk
    · rw [List.filter_cons, if_neg (by simp [hk]), List.find?_cons,
        show (kv.1 == j) = false by simp [hk, Ne.symm h]]
      exact find_filter_ne k j h m
    · rw [List.filter_cons, if_pos (by simp [hk]), List.find?_cons, List.find?_cons]
      cases hjb : (kv.1 == j)
      · exact find_filter_ne k j h m
      · rfl

theorem lookupA_insertA_self {α : Type} (m : List (Nat × α)) (k : Nat) (v : α) :
    lookupA (insertA m k v) k = some v := by
  unfold lookupA insertA removeA
  rw [List.find?_append, find_filter_self]
  simp [List.find?_cons]

theorem lookupA_insertA_ne {α : Type} (m : List (Nat × α)) (k j : Nat) (v : α)
    (h : j ≠ k) :
    lookupA (insertA m k v) j = lookupA m j := by
  unfold lookupA insertA removeA
  rw [List.find?_append, find_filter_ne k j h]
  have h2 : List.find? (fun kv => kv.1 == j) [(k, v)] = none := by
    simp [List.find?_cons, Ne.symm h]
  rw [h2]
  cases List.find? (fun kv => kv.1 == j) m <;> simp

theorem lookupA_removeA_self {α : Type} (m : List (Nat × α)) (k : Nat) :
    lookupA (removeA m k) k = none := by
  unfold lookupA removeA
  rw [find_filter_self]

theorem lookupA_removeA_ne {α : Type} (m : List (Nat × α)) (k j : Nat) (h : j ≠ k) :
    lookupA (removeA m k) j = lookupA m j := by
  unfold lookupA removeA
  rw [find_filter_ne k j h]

/-! Frame lemmas: which fields each operation leaves unchanged. -/

theorem prune_me (n : Network) (p : Nat) : (n.prune_from_network_status p).me = n.me := rfl

theorem prune_excluded (n : Network) (p : Nat) :
    (n.prune_from_network_status p).excluded = n.excluded := rfl

theorem prune_entries (n : Network) (p : Nat) :
    (n.prune_from_network_status p).entries = n.entries := rfl

theorem prune_ignored (n : Network) (p : Nat) :
    (n.prune_from_network_status p).ignored = n.ignored := rfl

theorem prune_threshold (n : Network) (p : Nat) :
    (n.prune_from_network_status p).network_quality_threshold =
      n.network_quality_threshold := rfl

theorem prune_api (n : Network) (p : Nat) :
    (n.prune_from_network_status p).is_public_api = n.is_public_api := rfl

theorem refresh_me (n : Network) (e : PeerStatus) :
    (n.refresh_network_status e).me = n.me := by
  simp only [Network.refresh_network_status]
  repeat' split
  all_goals rfl

theorem refresh_excluded (n : Network) (e : PeerStatus) :
    (n.refresh_network_status e).excluded = n.excluded := by
  simp only [Network.refresh_network_status]
  repeat' split
  all_goals rfl

theorem refresh_entries (n : Network) (e : PeerStatus) :
    (n.refresh_network_status e).entries = n.entries := by
  simp only [Network.refresh_network_status]
  repeat' split
  all_goals rfl

theorem refresh_ignored (n : Network) (e : PeerStatus) :
    (n.refresh_network_status e).ignored = n.ignored := by
  simp only [Network.refresh_network_status]
  repeat' split
  all_goals rfl

theorem refresh_threshold (n : Network) (e : PeerStatus) :
    (n.refresh_network_status e).network_quality_threshold =
      n.network_quality_threshold := by
  simp only [Network.refresh_network_status]
  repeat' split
  all_goals rfl

theorem refresh_api (n : Network) (e : PeerStatus) :
    (n.refresh_network_status e).is_public_api = n.is_public_api := by
  simp only [Network.refresh_network_status]
  repeat' split
  all_goals rfl

/-! Behaviour of `add` and `update` on the entry map. -/

theorem add_fresh_lookup (n : Network) (now p : Nat) (o : PeerOrigin)
    (h1 : lookupA n.entries p = none) (h2 : p ∉ n.excluded)
    (h3 : lookupA n.ignored p = none) :
    lookupA (n.add now p o).entries p =
      some { PeerStatus.new p o with is_public := n.is_public_api p } := by
  simp [Network.add, h1, h2, h3, lookupA_insertA_self]

theorem update_ok_lookup (n : Network) (now p ts : Nat) (e : PeerStatus)
    (he : lookupA n.entries p = some e) (hid : e.id = p) :
    lookupA (n.update now p (some ts)).entries p =
      some { e with
             last_seen := ts
             heartbeats_sent := e.heartbeats_sent + 1
             heartbeats_succeeded := e.heartbeats_succeeded + 1
             backoff := MIN_BACKOFF
             quality := min 1 (e.quality + 1/10) } := by
  simp only [Network.update, he]
  subst hid
  simp only [lookupA_insertA_self]

theorem update_err_ignored_eq (n : Network) (now p : Nat) (e : PeerStatus)
    (he : lookupA n.entries p = some e)
    (h1 : QUALITY_STEP / 2 ≤ max 0 (e.quality - QUALITY_STEP))
    (h2 : max 0 (e.quality - QUALITY_STEP) < BAD_QUALITY) :
    n.update now p none = { n with ignored := insertA n.ignored e.id now } := by
  simp only [Network.update, he]
  rw [if_neg (not_lt.mpr h1), if_pos h2]

theorem update_err_evict_eq (n : Network) (now p : Nat) (e : PeerStatus)
    (he : lookupA n.entries p = some e)
    (h1 : max 0 (e.quality - QUALITY_STEP) < QUALITY_STEP / 2) :
    n.update now p none =
      { n with
        events := n.events ++ [NetEvent.closeConnection e.id],
        good_quality_public := removeS (removeS n.good_quality_public e.id) e.id,
        good_quality_non_public := removeS n.good_quality_non_public e.id,
        bad_quality_non_public := removeS n.bad_quality_non_public e.id,
        entries := removeA n.entries e.id } := by
  simp only [Network.update, he]
  rw [if_pos h1]
  rfl

theorem update_err_kept_lookup (n : Network) (now p : Nat) (e : PeerStatus)
    (he : lookupA n.entries p = some e) (hid : e.id = p)
    (h1 : ¬ (max 0 (e.quality - QUALITY_STEP) < QUALITY_STEP / 2))
    (h2 : ¬ (max 0 (e.quality - QUALITY_STEP) < BAD_QUALITY)) :
    lookupA (n.update now p none).entries p =
      some { e with
             last_seen := now
             heartbeats_sent := e.heartbeats_sent + 1
             backoff := max MAX_BACKOFF (powf15 e.backoff)
             quality := max 0 (e.quality - QUALITY_STEP) } := by
  simp only [Network.update, he]
  rw [if_neg h1, if_neg h2]
  subst hid
  simp only [lookupA_insertA_self]

/-! Concrete values of the backoff exponentiation, matching `f64::powf`. -/

set_option maxRecDepth 4000 in
theorem isqrt_two_scaled : isqrt 2000000000000 = 1414213 := by
  with_unfolding_all decide

set_option maxRecDepth 4000 in
theorem isqrt_three_hundred_scaled : isqrt 300000000000000 = 17320508 := by
  with_unfolding_all decide

theorem powf15_min_backoff : powf15 MIN_BACKOFF = 1414213/500000 := by
  unfold powf15 ratSqrt MIN_BACKOFF
  rw [show (2:ℚ).num.toNat * 1000000000000 / (2:ℚ).den = 2000000000000 from rfl,
    isqrt_two_scaled]
  norm_num

theorem powf15_min_backoff_le : powf15 MIN_BACKOFF ≤ MAX_BACKOFF := by
  rw [powf15_min_backoff]
  norm_num [MAX_BACKOFF]

theorem powf15_max_backoff_gt : MAX_BACKOFF < powf15 MAX_BACKOFF := by
  unfold powf15 ratSqrt MAX_BACKOFF
  rw [show (300:ℚ).num.toNat * 1000000000000 / (300:ℚ).den = 300000000000000 from rfl,
    isqrt_three_hundred_scaled]
  norm_num

theorem rat_floor_eq_intFloor (q : ℚ) : Rat.floor q = ⌊q⌋ := rfl

/-- **C4.** Starting from a freshly added peer (quality 0, backoff
`MIN_BACKOFF`), two `Ok` updates followed by one `Err` update leave the status
stored in `entries` with `heartbeats_succeeded = 2` and
`backoff = MIN_BACKOFF = 2` (the `Err` update's mutated clone is never written
back on the ignore branch); the full stored status is given. -/
theorem network_two_ok_one_err_counters (n : Network) (p now0 t1 t2 t3 ts1 ts2 : Nat)
    (o : PeerOrigin)
    (h1 : lookupA n.entries p = none) (h2 : p ∉ n.excluded)
    (h3 : lookupA n.ignored p = none) :
    ((((n.add now0 p o).update t1 p (some ts1)).update t2 p (some ts2)).update t3 p
        none).get_peer_status p =
      some { id := p, origin := o, is_public := n.is_public_api p, last_seen := ts2,
             quality := 1/5, heartbeats_sent := 2, heartbeats_succeeded := 2,
             backoff := MIN_BACKOFF, ignored_at := none } := by
  have l0 := add_fresh_lookup n now0 p o h1 h2 h3
  have l1 := update_ok_lookup _ t1 p ts1 _ l0 rfl
  have l1' : lookupA ((n.add now0 p o).update t1 p (some ts1)).entries p =
      some { id := p, origin := o, is_public := n.is_public_api p, last_seen := ts1,
             quality := 1/10, heartbeats_sent := 1, heartbeats_succeeded := 1,
             backoff := MIN_BACKOFF, ignored_at := none } := by
    rw [l1]
    norm_num [PeerStatus.new, min_def]
  have l2 := update_ok_lookup _ t2 p ts2 _ l1' rfl
  have l2' : lookupA
      (((n.add now0 p o).update t1 p (some ts1)).update t2 p (some ts2)).entries p =
      some { id := p, origin := o, is_public := n.is_public_api p, last_seen := ts2,
             quality := 1/5, heartbeats_sent := 2, heartbeats_succeeded := 2,
             backoff := MIN_BACKOFF, ignored_at := none } := by
    rw [l2]
    norm_num [min_def]
  have l3 := update_err_ignored_eq _ t3 p _ l2'
    (by norm_num [QUALITY_STEP, max_def])
    (by norm_num [QUALITY_STEP, BAD_QUALITY, max_def])
  simp only [Network.get_peer_status, l3]
  exact l2'

/-- Witness for C4: the theorem applied to a fresh manager and peer 1. -/
theorem network_two_ok_one_err_counters_app :
    ((((netA.add 0 1 PeerOrigin.Testing).update 1 1 (some 10)).update 2 1
        (some 20)).update 3 1 none).get_peer_status 1 =
      some { id := 1, origin := PeerOrigin.Testing, is_public := netA.is_public_api 1,
             last_seen := 20, quality := 1/5, heartbeats_sent := 2,
             heartbeats_succeeded := 2, backoff := MIN_BACKOFF, ignored_at := none } :=
  network_two_ok_one_err_counters netA 1 0 1 2 3 10 20 PeerOrigin.Testing rfl
    (by decide) rfl

/-- **C10.** When an `Err` update drives the decremented quality into
`[QUALITY_STEP/2, BAD_QUALITY)`, the resulting state differs from the previous
one only in `ignored`, which gains the peer id with the current timestamp; in
particular the stored `PeerStatus` and the four quality sets are untouched. -/
theorem network_err_ignore_branch_frame (n : Network) (now p : Nat) (e : PeerStatus)
    (he : lookupA n.entries p = some e)
    (h1 : QUALITY_STEP / 2 ≤ max 0 (e.quality - QUALITY_STEP))
    (h2 : max 0 (e.quality - QUALITY_STEP) < BAD_QUALITY) :
    n.update now p none = { n with ignored := insertA n.ignored e.id now } :=
  update_err_ignored_eq n now p e he h1 h2

/-- Witness for C10: the theorem applied to `netC` (peer 1 at quality 0.2). -/
theorem network_err_ignore_branch_frame_app :
    netC.update 7 1 none = { netC with ignored := insertA netC.ignored statusC.id 7 } :=
  network_err_ignore_branch_frame netC 7 1 statusC rfl
    (by norm_num [statusC, QUALITY_STEP, max_def])
    (by norm_num [statusC, QUALITY_STEP, BAD_QUALITY, max_def])

/-- **C5 (amended).** When an `Err` update drives the decremented quality below
`QUALITY_STEP/2`, the manager emits `close_connection(peer)`, prunes the peer
from `good_quality_public`, `good_quality_non_public` and
`bad_quality_non_public` (the pruning routine does not touch
`bad_quality_public`), removes the peer from `entries` and returns without a
further health refresh; afterwards `has(peer)` is false. -/
theorem network_evict_below_half_step (n : Network) (now p : Nat) (e : PeerStatus)
    (he : lookupA n.entries p = some e) (hid : e.id = p)
    (h1 : max 0 (e.quality - QUALITY_STEP) < QUALITY_STEP / 2) :
    n.update now p none =
      { n with
        events := n.events ++ [NetEvent.closeConnection p]
        good_quality_public := removeS (removeS n.good_quality_public p) p
        good_quality_non_public := removeS n.good_quality_non_public p
        bad_quality_non_public := removeS n.bad_quality_non_public p
        entries := removeA n.entries p } ∧
    (n.update now p none).has p = false ∧
    (n.update now p none).last_health = n.last_health := by
  subst hid
  refine ⟨update_err_evict_eq n now e.id e he h1, ?_, ?_⟩
  · rw [update_err_evict_eq n now e.id e he h1]
    simp [Network.has, lookupA_removeA_self]
  · rw [update_err_evict_eq n now e.id e he h1]

/-- Witness for C5: the theorem applied to `netD` (peer 1 at quality 0.1). -/
theorem network_evict_below_half_step_app :
    netD.update 9 1 none =
      { netD with
        events := netD.events ++ [NetEvent.closeConnection 1]
        good_quality_public := removeS (removeS netD.good_quality_public 1) 1
        good_quality_non_public := removeS netD.good_quality_non_public 1
        bad_quality_non_public := removeS netD.bad_quality_non_public 1
        entries := removeA netD.entries 1 } ∧
    (netD.update 9 1 none).has 1 = false ∧
    (netD.update 9 1 none).last_health = netD.last_health :=
  network_evict_below_half_step netD 9 1 statusD rfl rfl
    (by norm_num [statusD, QUALITY_STEP, max_def])

/-- **C5 (counterexample to the claim as stated).** Starting from a fresh
manager with threshold 0.2 where peer 1 is public, `add` puts peer 1 into
`bad_quality_public`; one `Err` update then evicts it (quality 0 < 0.05,
`close_connection` fires, `has` becomes false), yet peer 1 is still a member
of `bad_quality_public` — the claim's "prunes it from the four quality sets"
is false, because `prune_from_network_status` never touches that set. -/
theorem network_evict_leaves_bad_public :
    ((netB.add 0 1 PeerOrigin.IncomingConnection).update 3 1 none).has 1 = false ∧
    NetEvent.closeConnection 1 ∈
      ((netB.add 0 1 PeerOrigin.IncomingConnection).update 3 1 none).events ∧
    1 ∈ ((netB.add 0 1 PeerOrigin.IncomingConnection).update 3 1 none).bad_quality_public := by
  with_unfolding_all decide

/-- **C2 (bug witness).** Reachable run on which a stored backoff exceeds
`MAX_BACKOFF`: from a fresh manager, add peer 9, four `Ok` updates (quality
0.4), then two `Err` updates.  The first `Err` stores
`backoff = max(MAX_BACKOFF, 2^1.5) = MAX_BACKOFF`; the second stores
`backoff = max(MAX_BACKOFF, MAX_BACKOFF^1.5) = MAX_BACKOFF^1.5 > MAX_BACKOFF`,
violating the claimed `backoff ≤ MAX_BACKOFF` invariant. -/
theorem network_backoff_exceeds_max_after_two_failures :
    (Network.new 0 (3/5) (fun _ => false) = some netA) ∧
    MAX_BACKOFF <
      (Option.map PeerStatus.backoff
        ((((((((netA.add 0 9 PeerOrigin.Testing).update 1 9 (some 10)).update 2 9
          (some 20)).update 3 9 (some 30)).update 4 9 (some 40)).update 5 9
          none).update 6 9 none).get_peer_status 9)).getD 0 := by
  refine ⟨by rw [Network.new, if_neg (by norm_num [BAD_QUALITY])]; rfl, ?_⟩
  have l0 := add_fresh_lookup netA 0 9 PeerOrigin.Testing rfl (by decide) rfl
  have l1 := update_ok_lookup _ 1 9 10 _ l0 rfl
  have l1' : lookupA ((netA.add 0 9 PeerOrigin.Testing).update 1 9 (some 10)).entries 9 =
      some { id := 9, origin := PeerOrigin.Testing, is_public := false, last_seen := 10,
             quality := 1/10, heartbeats_sent := 1, heartbeats_succeeded := 1,
             backoff := MIN_BACKOFF, ignored_at := none } := by
    rw [l1]
    norm_num [PeerStatus.new, netA, min_def]
  have l2 := update_ok_lookup _ 2 9 20 _ l1' rfl
  have l2' : lookupA (((netA.add 0 9 PeerOrigin.Testing).update 1 9 (some 10)).update 2 9
        (some 20)).entries 9 =
      some { id := 9, origin := PeerOrigin.Testing, is_public := false, last_seen := 20,
             quality := 1/5, heartbeats_sent := 2, heartbeats_succeeded := 2,
             backoff := MIN_BACKOFF, ignored_at := none } := by
    rw [l2]
    norm_num [min_def]
  have l3 := update_ok_lookup _ 3 9 30 _ l2' rfl
  have l3' : lookupA ((((netA.add 0 9 PeerOrigin.Testing).update 1 9 (some 10)).update 2 9
        (some 20)).update 3 9 (some 30)).entries 9 =
      some { id := 9, origin := PeerOrigin.Testing, is_public := false, last_seen := 30,
             quality := 3/10, heartbeats_sent := 3, heartbeats_succeeded := 3,
             backoff := MIN_BACKOFF, ignored_at := none } := by
    rw [l3]
    norm_num [min_def]
  have l4 := update_ok_lookup _ 4 9 40 _ l3' rfl
  have l4' : lookupA (((((netA.add 0 9 PeerOrigin.Testing).update 1 9 (some 10)).update 2 9
        (some 20)).update 3 9 (some 30)).update 4 9 (some 40)).entries 9 =
      some { id := 9, origin := PeerOrigin.Testing, is_public := false, last_seen := 40,
             quality := 2/5, heartbeats_sent := 4, heartbeats_succeeded := 4,
             backoff := MIN_BACKOFF, ignored_at := none } := by
    rw [l4]
    norm_num [min_def]
  have l5 := update_err_kept_lookup _ 5 9 _ l4' rfl
    (by norm_num [QUALITY_STEP, max_def])
    (by norm_num [QUALITY_STEP, BAD_QUALITY, max_def])
  have hb1 : max MAX_BACKOFF (powf15 MIN_BACKOFF) = MAX_BACKOFF :=
    max_eq_left powf15_min_backoff_le
  have hq1 : max (0:ℚ) (2/5 - QUALITY_STEP) = 3/10 := by
    rw [max_eq_right (by norm_num [QUALITY_STEP])]
    norm_num [QUALITY_STEP]
  have l5' : lookupA ((((((netA.add 0 9 PeerOrigin.Testing).update 1 9 (some 10)).update 2 9
        (some 20)).update 3 9 (some 30)).update 4 9 (some 40)).update 5 9 none).entries 9 =
      some { id := 9, origin := PeerOrigin.Testing, is_public := false, last_seen := 5,
             quality := 3/10, heartbeats_sent := 5, heartbeats_succeeded := 4,
             backoff := MAX_BACKOFF, ignored_at := none } := by
    rw [l5]
    norm_num [hb1, hq1]
  have l6 := update_err_kept_lookup _ 6 9 _ l5' rfl
    (by norm_num [QUALITY_STEP, max_def])
    (by norm_num [QUALITY_STEP, BAD_QUALITY, max_def])
  have hb2 : max MAX_BACKOFF (powf15 MAX_BACKOFF) = powf15 MAX_BACKOFF :=
    max_eq_right (le_of_lt powf15_max_backoff_gt)
  have hq2 : max (0:ℚ) (3/10 - QUALITY_STEP) = 1/5 := by
    rw [max_eq_right (by norm_num [QUALITY_STEP])]
    norm_num [QUALITY_STEP]
  have l6' : lookupA (((((((netA.add 0 9 PeerOrigin.Testing).update 1 9 (some 10)).update 2 9
        (some 20)).update 3 9 (some 30)).update 4 9 (some 40)).update 5 9 none).update 6 9
        none).entries 9 =
      some { id := 9, origin := PeerOrigin.Testing, is_public := false, last_seen := 6,
             quality := 1/5, heartbeats_sent := 6, heartbeats_succeeded := 4,
             backoff := powf15 MAX_BACKOFF, ignored_at := none } := by
    rw [l6]
    norm_num [hb2, hq2]
  simp only [Network.get_peer_status]
  rw [l6']
  simpa using powf15_max_backoff_gt

/-- **C3 (bug witness).** Reachable run on which a peer is in two quality sets
at once: fresh manager with threshold 0.2, public peer 1 added (quality 0 puts
it into `bad_quality_public`), then two `Ok` updates raise quality to 0.2 ≥
threshold, inserting it into `good_quality_public` — but
`prune_from_network_status` removes from `good_quality_public` twice and never
from `bad_quality_public`, so the peer stays in both sets. -/
theorem network_quality_sets_overlap :
    (Network.new 0 (1/5) (fun p => p == 1) = some netB) ∧
    1 ∈ (((netB.add 0 1 PeerOrigin.IncomingConnection).update 1 1 (some 10)).update 2 1
        (some 20)).good_quality_public ∧
    1 ∈ (((netB.add 0 1 PeerOrigin.IncomingConnection).update 1 1 (some 10)).update 2 1
        (some 20)).bad_quality_public :=
  ⟨by rw [Network.new, if_neg (by norm_num [BAD_QUALITY])]; rfl,
   by with_unfolding_all decide,
   by with_unfolding_all decide⟩

/-- **C6.** `find_peers_to_ping(t)` returns exactly the peers whose entry has
`next_ping < t` (strictly), sorted ascending by `last_seen`, where
`next_ping = last_seen + min(MAX_DELAY, MIN_DELAY * backoff^1.5)` in
milliseconds (the `as u64` cast rounds down); concretely, a freshly created
entry (`last_seen = 0`, `backoff = MIN_BACKOFF = 2`) has
`next_ping = ⌊1000 * 2^1.5⌋ = 2828`, the value the source's own unit test
`test_entry_should_advance_time_on_ping` asserts. -/
theorem network_find_peers_to_ping_correct (n : Network) (t : Nat) :
    (∀ p, p ∈ n.find_peers_to_ping t ↔
      ∃ s ∈ n.entries.map Prod.snd, s.id = p ∧ s.next_ping < t) ∧
    (n.find_peers_to_ping t).Sorted (fun a b => lastSeenOf n a ≤ lastSeenOf n b) ∧
    (∀ s : PeerStatus, s.next_ping =
      s.last_seen + min MAX_DELAY (Rat.floor ((MIN_DELAY : ℚ) * powf15 s.backoff)).toNat) ∧
    (∀ (p : Nat) (o : PeerOrigin), (PeerStatus.new p o).next_ping = 2828) := by
  refine ⟨?_, ?_, fun s => rfl, ?_⟩
  · intro p
    simp only [Network.find_peers_to_ping, Network.filter, List.mem_insertionSort,
      List.mem_map, List.mem_filter, decide_eq_true_eq]
    constructor
    · rintro ⟨s, ⟨hs, hf⟩, rfl⟩
      exact ⟨s, hs, rfl, hf⟩
    · rintro ⟨s, hs, rfl, hf⟩
      exact ⟨s, ⟨hs, hf⟩, rfl⟩
  · have h1 : IsTotal Nat (fun a b => lastSeenOf n a ≤ lastSeenOf n b) :=
      ⟨fun a b => le_total _ _⟩
    have h2 : IsTrans Nat (fun a b => lastSeenOf n a ≤ lastSeenOf n b) :=
      ⟨fun a b c hab hbc => le_trans hab hbc⟩
    exact List.sorted_insertionSort _ _
  · intro p o
    have h : (Rat.floor ((MIN_DELAY : ℚ) * powf15 MIN_BACKOFF)).toNat = 2828 := by
      rw [rat_floor_eq_intFloor, powf15_min_backoff]
      norm_num [MIN_DELAY]
      rfl
    show 0 + min MAX_DELAY (Rat.floor ((MIN_DELAY : ℚ) * powf15 MIN_BACKOFF)).toNat = 2828
    rw [h]
    decide

set_option maxHeartbeats 1600000 in
/-- **C7.** On every refresh the derived health follows the spec's ladder:
RED, overridden by ORANGE when `bad_quality_public` is non-empty, overridden
(when `good_quality_public` is non-empty) by GREEN if
`good_quality_non_public` is non-empty or `is_public(me)` holds and by YELLOW
otherwise; and a freshly constructed manager reports UNKNOWN. -/
theorem network_health_ladder :
    (∀ (n : Network) (e : PeerStatus),
      (n.refresh_network_status e).last_health =
        (if 0 < (n.refresh_network_status e).good_quality_public.length then
          (if 0 < (n.refresh_network_status e).good_quality_non_public.length ∨
              (n.refresh_network_status e).is_public_api (n.refresh_network_status e).me =
                true then
            Health.GREEN
          else Health.YELLOW)
        else if 0 < (n.refresh_network_status e).bad_quality_public.length then
          Health.ORANGE
        else Health.RED)) ∧
    (∀ (me : Nat) (thr : ℚ) (api : Nat → Bool) (n0 : Network),
      Network.new me thr api = some n0 → n0.last_health = Health.UNKNOWN) := by
  constructor
  · intro n e
    simp only [Network.refresh_network_status]
    split_ifs <;> simp_all
  · intro me thr api n0 h
    by_cases hthr : thr < BAD_QUALITY
    · rw [Network.new, if_pos hthr] at h
      cases h
    · rw [Network.new, if_neg hthr] at h
      injection h with h2
      rw [← h2]

/-- Witness for C7: the second conjunct applied to a concrete construction. -/
theorem network_health_ladder_app : netA.last_health = Health.UNKNOWN :=
  network_health_ladder.2 0 (3/5) (fun _ => false) netA
    (by rw [Network.new, if_neg (by norm_num [BAD_QUALITY])]; rfl)

/-! Preservation of `InvM` by the four state transitions (for C8). -/

theorem lookupA_insertA_ne' {α : Type} {k j : Nat} (h : j ≠ k)
    (m : List (Nat × α)) (v : α) :
    lookupA (insertA m k v) j = lookupA m j :=
  lookupA_insertA_ne m k j v h

theorem lookupA_removeA_ne' {α : Type} {k j : Nat} (h : j ≠ k)
    (m : List (Nat × α)) :
    lookupA (removeA m k) j = lookupA m j :=
  lookupA_removeA_ne m k j h

theorem lookupA_mem {α : Type} {m : List (Nat × α)} {k : Nat} {v : α}
    (h : lookupA m k = some v) : (k, v) ∈ m := by
  unfold lookupA at h
  cases hf : m.find? (fun kv => kv.1 == k) with
  | none => simp [hf] at h
  | some kv =>
    rw [hf] at h
    injection h with h
    obtain ⟨k1, v1⟩ := kv
    have hp := List.find?_some hf
    simp only [beq_iff_eq] at hp
    subst hp
    subst h
    exact List.mem_of_find?_eq_some hf

theorem forall_insertA {α : Type} (P : Nat × α → Prop) (m : List (Nat × α))
    (k : Nat) (v : α) (hm : ∀ kv ∈ m, P kv) (hv : P (k, v)) :
    ∀ kv ∈ insertA m k v, P kv := by
  intro kv hkv
  unfold insertA removeA at hkv
  rcases List.mem_append.1 hkv with hmem | hmem
  · exact hm _ (List.mem_of_mem_filter hmem)
  · rw [List.mem_singleton] at hmem
    subst hmem
    exact hv

theorem forall_removeA {α : Type} (P : Nat × α → Prop) (m : List (Nat × α))
    (k : Nat) (hm : ∀ kv ∈ m, P kv) :
    ∀ kv ∈ removeA m k, P kv :=
  fun _ hkv => hm _ (List.mem_of_mem_filter hkv)

theorem add_excluded_noop (n : Network) (now p : Nat) (o : PeerOrigin)
    (h1 : lookupA n.entries p = none) (h2 : p ∈ n.excluded) :
    n.add now p o = n := by
  simp [Network.add, h1, h2]

theorem add_me (n : Network) (now p : Nat) (o : PeerOrigin) :
    (n.add now p o).me = n.me := by
  simp only [Network.add]
  repeat' split
  all_goals simp [refresh_me]

theorem add_excluded (n : Network) (now p : Nat) (o : PeerOrigin) :
    (n.add now p o).excluded = n.excluded := by
  simp only [Network.add]
  repeat' split
  all_goals simp [refresh_excluded]

theorem add_lookup_ne (n : Network) (now p : Nat) (o : PeerOrigin) (j : Nat)
    (hj : j ≠ p) :
    lookupA (n.add now p o).entries j = lookupA n.entries j := by
  simp only [Network.add]
  repeat' split
  all_goals simp [refresh_entries, lookupA_insertA_ne' hj]

theorem add_ids (n : Network) (now p : Nat) (o : PeerOrigin)
    (hids : ∀ kv ∈ n.entries, kv.1 = kv.2.id) :
    ∀ kv ∈ (n.add now p o).entries, kv.1 = kv.2.id := by
  simp only [Network.add]
  repeat' split
  all_goals try exact hids
  all_goals
    intro kv hkv
  all_goals
    rw [refresh_entries] at hkv
  all_goals
    exact forall_insertA _ _ _ _ hids rfl kv hkv

theorem update_me (n : Network) (now p : Nat) (r : Option Nat) :
    (n.update now p r).me = n.me := by
  simp only [Network.update]
  repeat' split
  all_goals simp [refresh_me, prune_me]

theorem update_excluded (n : Network) (now p : Nat) (r : Option Nat) :
    (n.update now p r).excluded = n.excluded := by
  simp only [Network.update]
  repeat' split
  all_goals simp [refresh_excluded, prune_excluded]

theorem invM_new (me : Nat) (thr : ℚ) (api : Nat → Bool) (n0 : Network)
    (h : Network.new me thr api = some n0) : InvM n0 := by
  by_cases hthr : thr < BAD_QUALITY
  · rw [Network.new, if_pos hthr] at h
    cases h
  · rw [Network.new, if_neg hthr] at h
    injection h with h2
    rw [← h2]
    refine ⟨List.mem_singleton_self me, ?_, rfl⟩
    intro kv hkv
    cases hkv

theorem invM_add (n : Network) (now p : Nat) (o : PeerOrigin) (h : InvM n) :
    InvM (n.add now p o) := by
  obtain ⟨hex, hids, hme⟩ := h
  rcases eq_or_ne p n.me with rfl | hpn
  · rw [add_excluded_noop n now n.me o hme hex]
    exact ⟨hex, hids, hme⟩
  · refine ⟨?_, add_ids n now p o hids, ?_⟩
    · rw [add_me, add_excluded]
      exact hex
    · rw [add_me, add_lookup_ne n now p o n.me (Ne.symm hpn)]
      exact hme

theorem invM_remove (n : Network) (p : Nat) (h : InvM n) : InvM (n.remove p) := by
  obtain ⟨hex, hids, hme⟩ := h
  refine ⟨hex, ?_, ?_⟩
  · intro kv hkv
    simp only [Network.remove, prune_entries] at hkv
    exact forall_removeA _ _ _ hids kv hkv
  · rcases eq_or_ne n.me p with heq | hne
    · simp only [Network.remove, prune_entries, prune_me]
      rw [heq, lookupA_removeA_self]
    · simp only [Network.remove, prune_entries, prune_me]
      rw [lookupA_removeA_ne' hne]
      exact hme

theorem invM_update (n : Network) (now p : Nat) (r : Option Nat) (h : InvM n) :
    InvM (n.update now p r) := by
  obtain ⟨hex, hids, hme⟩ := h
  cases hl : lookupA n.entries p with
  | none =>
    have hnoop : n.update now p r = n := by simp [Network.update, hl]
    rw [hnoop]
    exact ⟨hex, hids, hme⟩
  | some e =>
    have hpe : p = e.id := hids _ (lookupA_mem hl)
    have hpme : p ≠ n.me := by
      intro hq
      rw [hq, hme] at hl
      cases hl
    have hmene : n.me ≠ e.id := by
      rw [← hpe]
      exact Ne.symm hpme
    refine ⟨?_, ?_, ?_⟩
    · rw [update_me, update_excluded]
      exact hex
    · cases r with
      | some ts =>
        simp only [Network.update, hl]
        intro kv hkv
        rw [refresh_entries] at hkv
        exact forall_insertA _ _ _ _ hids rfl kv hkv
      | none =>
        simp only [Network.update, hl]
        split
        · intro kv hkv
          rw [prune_entries] at hkv
          exact forall_removeA _ _ _ hids kv hkv
        · split
          · exact hids
          · intro kv hkv
            rw [refresh_entries] at hkv
            refine forall_insertA (fun kv => kv.1 = kv.2.id) _ _ _ ?_ rfl kv hkv
            split <;> exact hids
    · rw [update_me]
      cases r with
      | some ts =>
        simp only [Network.update, hl]
        rw [lookupA_insertA_ne' hmene, refresh_entries]
        exact hme
      | none =>
        simp only [Network.update, hl]
        split
        · rw [lookupA_removeA_ne' hmene, prune_entries]
          exact hme
        · split
          · exact hme
          · rw [lookupA_insertA_ne' hmene, refresh_entries]
            split <;> exact hme

theorem reachable_invM (n : Network) (h : Reachable n) : InvM n := by
  induction h with
  | new me thr api n0 hnew => exact invM_new me thr api n0 hnew
  | add n now peer origin _ ih => exact invM_add n now peer origin ih
  | remove n peer _ ih => exact invM_remove n peer ih
  | update n now peer r _ ih => exact invM_update n now peer r ih

/-- **C8.** In every reachable state the local peer id `me` is a member of
`excluded` and never a member of `entries`; `add(me, origin)` is a complete
no-op (so `length()` is unchanged) and `has(me)` is false.  On a fresh
manager `length()` is 0. -/
theorem network_me_excluded_invariant :
    (∀ n : Network, Reachable n →
      n.me ∈ n.excluded ∧ n.has n.me = false ∧
        ∀ (now : Nat) (o : PeerOrigin), n.add now n.me o = n) ∧
    (∀ (me : Nat) (thr : ℚ) (api : Nat → Bool) (n0 : Network),
      Network.new me thr api = some n0 → n0.length = 0) := by
  constructor
  · intro n h
    obtain ⟨hex, hids, hme⟩ := reachable_invM n h
    refine ⟨hex, ?_, ?_⟩
    · simp [Network.has, hme]
    · intro now o
      exact add_excluded_noop n now n.me o hme hex
  · intro me thr api n0 h
    by_cases hthr : thr < BAD_QUALITY
    · rw [Network.new, if_pos hthr] at h
      cases h
    · rw [Network.new, if_neg hthr] at h
      injection h with h2
      rw [← h2]
      rfl

/-- Witness for C8: the theorem applied to the reachable state
`netA.add 0 1 _` with concrete arguments. -/
theorem network_me_excluded_invariant_app :
    (netA.add 0 1 PeerOrigin.Testing).has (netA.add 0 1 PeerOrigin.Testing).me = false ∧
    (netA.add 0 1 PeerOrigin.Testing).add 5 (netA.add 0 1 PeerOrigin.Testing).me
        PeerOrigin.ManualPing = netA.add 0 1 PeerOrigin.Testing ∧
    netA.length = 0 :=
  ⟨(network_me_excluded_invariant.1 _
      (Reachable.add netA 0 1 PeerOrigin.Testing
        (Reachable.new 0 (3/5) (fun _ => false) netA
          (by rw [Network.new, if_neg (by norm_num [BAD_QUALITY])]; rfl)))).2.1,
   (network_me_excluded_invariant.1 _
      (Reachable.add netA 0 1 PeerOrigin.Testing
        (Reachable.new 0 (3/5) (fun _ => false) netA
          (by rw [Network.new, if_neg (by norm_num [BAD_QUALITY])]; rfl)))).2.2 5
      PeerOrigin.ManualPing,
   network_me_excluded_invariant.2 0 (3/5) (fun _ => false) netA
     (by rw [Network.new, if_neg (by norm_num [BAD_QUALITY])]; rfl)⟩

end Hopr
